import Mathlib

/-!
Shallow embedding of the conversation-management core of the UMS agent
(`agent/conversation_manager.py`, `agent/prompts.py`).  Redis is modelled as a
key-value map plus a sorted set; `datetime.now` values are passed explicitly.
-/

namespace UmsAgent

/-- JSON-like values: the shape of data persisted in the store and produced by
`model_dump`. -/
inductive JVal where
  | jnull : JVal
  | jstr : String → JVal
  | jarr : List JVal → JVal
  | jobj : List (String × JVal) → JVal

/-- Modelled from the spec: role of a message (`agent/models/message.py` is not
under src).  Spec section 3: role is one of system, user, assistant, tool. -/
inductive Role where
  | system : Role
  | user : Role
  | assistant : Role
  | tool : Role
deriving DecidableEq, Repr

/-- Serialisation of a role, as pydantic dumps the enum value. -/
def Role.toStr : Role → String
  | .system => "system"
  | .user => "user"
  | .assistant => "assistant"
  | .tool => "tool"

/-- Parsing of a role string, as pydantic validation reconstructs the enum. -/
def Role.ofStr (s : String) : Option Role :=
  if s = "system" then some .system
  else if s = "user" then some .user
  else if s = "assistant" then some .assistant
  else if s = "tool" then some .tool
  else none

/-- Modelled from the spec: a tool call `{id, name, arguments}` (spec section 3;
`agent/models/message.py` is not under src).  The structured argument payload is
kept as a JSON value. -/
structure ToolCall where
  id : String
  name : String
  arguments : JVal

/-- Modelled from the spec: a conversation message `{role, content (nullable),
tool_calls (optional), tool_call_id (optional)}` (spec section 3;
`agent/models/message.py` is not under src). -/
structure Message where
  role : Role
  content : Option String
  tool_calls : Option (List ToolCall)
  tool_call_id : Option String

/-- Dump of an optional string field, `None` becoming JSON null. -/
def optStrJ : Option String → JVal
  | none => .jnull
  | some s => .jstr s

/-- Dump of a tool call into its persisted JSON object. -/
def ToolCall.model_dump (tc : ToolCall) : JVal :=
  .jobj [("id", .jstr tc.id), ("name", .jstr tc.name), ("arguments", tc.arguments)]

/-- A persisted message record: the key-value dictionary `Message.model_dump`
produces and `Message(**msg_data)` consumes. -/
abbrev MsgRec := List (String × JVal)

/-- Dump of a message into its persisted dictionary, field by field, as
pydantic `model_dump` does. -/
def Message.model_dump (m : Message) : MsgRec :=
  [("role", .jstr m.role.toStr),
   ("content", optStrJ m.content),
   ("tool_calls",
     match m.tool_calls with
     | none => JVal.jnull
     | some tcs => JVal.jarr (tcs.map ToolCall.model_dump)),
   ("tool_call_id", optStrJ m.tool_call_id)]

/-- Dictionary lookup by key, first binding wins. -/
def jLookup (k : String) : List (String × JVal) → Option JVal
  | [] => none
  | (k2, v) :: rest => if k2 = k then some v else jLookup k rest

/-- Validation of an optional string field: absent or null maps to `none`. -/
def parseOptStr : Option JVal → Option (Option String)
  | none => some none
  | some .jnull => some none
  | some (.jstr s) => some (some s)
  | some _ => none

/-- Validation of a persisted tool call. -/
def ToolCall.ofJVal : JVal → Option ToolCall
  | .jobj fields =>
    match jLookup "id" fields, jLookup "name" fields, jLookup "arguments" fields with
    | some (.jstr i), some (.jstr n), some a => some ⟨i, n, a⟩
    | _, _, _ => none
  | _ => none

/-- Monadic map over a list in `Option`, failing on the first element that
fails — the semantics of a Python loop whose body may raise. -/
def optMapM (f : α → Option β) : List α → Option (List β)
  | [] => some []
  | x :: xs =>
    match f x with
    | none => none
    | some y => (optMapM f xs).map (y :: ·)

/-- Validation of the optional `tool_calls` field. -/
def parseToolCalls : Option JVal → Option (Option (List ToolCall))
  | none => some none
  | some .jnull => some none
  | some (.jarr xs) => (optMapM ToolCall.ofJVal xs).map some
  | some _ => none

/-- Reconstruction of a typed message from a persisted record, as
`Message(**msg_data)` validates keyword arguments. -/
def Message.ofRecord (r : MsgRec) : Option Message :=
  match jLookup "role" r with
  | some (.jstr s) =>
    match Role.ofStr s with
    | some role =>
      match parseOptStr (jLookup "content" r), parseToolCalls (jLookup "tool_calls" r),
            parseOptStr (jLookup "tool_call_id" r) with
      | some c, some tcs, some tid => some ⟨role, c, tcs, tid⟩
      | _, _, _ => none
    | none => none
  | _ => none

theorem Role.ofStr_toStr (r : Role) : Role.ofStr r.toStr = some r := by
  cases r <;> rfl

theorem ToolCall.ofJVal_model_dump (tc : ToolCall) :
    ToolCall.ofJVal tc.model_dump = some tc := by
  cases tc
  rfl

theorem optMapM_map_roundtrip {f : α → Option β} {g : β → α}
    (hfg : ∀ b, f (g b) = some b) (l : List β) :
    optMapM f (l.map g) = some l := by
  induction l with
  | nil => rfl
  | cons x xs ih => simp [optMapM, hfg, ih]

/-- Parsing a dumped message recovers the message: the record-level half of the
persistence round trip. -/
theorem Message.ofRecord_model_dump (m : Message) :
    Message.ofRecord m.model_dump = some m := by
  obtain ⟨role, content, tcs, tid⟩ := m
  cases tcs with
  | none => cases role <;> cases content <;> cases tid <;> rfl
  | some l =>
    have h : optMapM ToolCall.ofJVal (l.map ToolCall.model_dump) = some l :=
      optMapM_map_roundtrip ToolCall.ofJVal_model_dump l
    cases role <;> cases content <;> cases tid <;>
      simp [Message.ofRecord, Message.model_dump, jLookup, parseOptStr,
        optStrJ, Role.ofStr, Role.toStr, parseToolCalls, h]

/-- A persisted conversation record, the decoded form of the JSON blob stored
under `"conversation:" + id` (`create_conversation` builds this dict in
`conversation_manager.py`). -/
structure ConvRecord where
  id : String
  title : String
  messages : List MsgRec
  created_at : String
  updated_at : String

/-- A summary entry as produced by `list_conversations`. -/
structure ConversationSummary where
  id : String
  title : String
  created_at : String
  updated_at : String
  message_count : Nat
deriving DecidableEq, Repr

/-- The redis state used by the manager: the conversation records keyed by
string, plus the sorted set stored under `CONVERSATION_LIST_KEY`. -/
structure Store where
  kv : String → Option ConvRecord
  zset : List (String × Int)

/-- Key prefix for conversation records (`conversation_manager.py`, line 16). -/
def CONVERSATION_PREFIX : String := "conversation:"

/-- The redis key of a conversation record. -/
def convKey (cid : String) : String := CONVERSATION_PREFIX ++ cid

/-- Redis `SET`: overwrite the value under a key. -/
def kvSet (store : Store) (k : String) (v : ConvRecord) : Store :=
  { store with kv := fun k2 => if k2 = k then some v else store.kv k2 }

/-- Redis `DELETE`: remove a key, returning how many keys were removed. -/
def kvDelete (store : Store) (k : String) : Nat × Store :=
  ((if (store.kv k).isSome then 1 else 0),
   { store with kv := fun k2 => if k2 = k then none else store.kv k2 })

/-- Redis `ZADD`: insert a member or update its score. -/
def zadd (store : Store) (member : String) (score : Int) : Store :=
  { store with zset := (member, score) :: store.zset.filter (fun p => p.1 ≠ member) }

/-- Redis sorted-set ascending order: by score, ties broken by member. -/
def zleP (a b : String × Int) : Prop :=
  a.2 < b.2 ∨ (a.2 = b.2 ∧ a.1 ≤ b.1)

instance : DecidableRel zleP := fun a b =>
  inferInstanceAs (Decidable (a.2 < b.2 ∨ (a.2 = b.2 ∧ a.1 ≤ b.1)))

instance : IsTotal (String × Int) zleP := by
  constructor
  intro a b
  rcases lt_trichotomy a.2 b.2 with h | h | h
  · exact Or.inl (Or.inl h)
  · rcases le_total a.1 b.1 with h2 | h2
    · exact Or.inl (Or.inr ⟨h, h2⟩)
    · exact Or.inr (Or.inr ⟨h.symm, h2⟩)
  · exact Or.inr (Or.inl h)

instance : IsTrans (String × Int) zleP := by
  constructor
  intro a b c hab hbc
  rcases hab with h1 | ⟨h1, h2⟩ <;> rcases hbc with h3 | ⟨h3, h4⟩
  · exact Or.inl (h1.trans h3)
  · exact Or.inl (h3 ▸ h1)
  · exact Or.inl (h1 ▸ h3)
  · exact Or.inr ⟨h1.trans h3, h2.trans h4⟩

/-- Redis `ZREVRANGE key 0 -1` on the member-score pairs: highest score first,
ties in reverse lexicographic member order. -/
def zrevrangePairs (zs : List (String × Int)) : List (String × Int) :=
  (List.insertionSort zleP zs).reverse

/-- Redis `ZREVRANGE key 0 -1`: the members, highest score first. -/
def zrevrange (zs : List (String × Int)) : List String :=
  (zrevrangePairs zs).map Prod.fst

/-- Redis `ZSCORE`: the score of a member, if present. -/
def zscoreOf (zs : List (String × Int)) (cid : String) : Option Int :=
  match zs with
  | [] => none
  | p :: rest => if p.1 = cid then some p.2 else zscoreOf rest cid

/-- The fixed system instruction (`agent/prompts.py`). -/
def SYSTEM_PROMPT : String :=
  "\nYou are a User Management Agent designed to assist with managing user data through a User Service. \n"
  ++ "Your primary role is to perform tasks such as creating, reading, updating, deleting, and searching for user information based on the commands you receive.\n"
  ++ "When responding to queries, please adhere to the following guidelines:\n"
  ++ "1. Always provide structured and clear responses, using bullet points or numbered lists where appropriate.\n"
  ++ "2. Confirm actions taken, such as user creation or updates, with concise summaries. \n"
  ++ "3. Handle errors gracefully by providing informative messages that help users understand what went wrong and how to fix it.\n"
  ++ "4. Maintain a professional and courteous tone in all interactions.\n"
  ++ "5. Only respond to queries related to user management. If a query is outside this domain, politely decline to answer.\n"

/-- The message prepended on a brand-new conversation
(`Message(role=Role.SYSTEM, content=SYSTEM_PROMPT)`). -/
def systemMessage : Message :=
  { role := Role.system, content := some SYSTEM_PROMPT,
    tool_calls := none, tool_call_id := none }

/-- Errors a turn can raise.  `conversationNotFound` is the
`ConversationNotFoundError` of the spec, raised as `ValueError` in `chat`;
`badMessageRecord` is a pydantic validation failure in `Message(**msg_data)`;
`modelUnavailable` is a failure of the model call inside the agent loop;
`saveMissingRecord` is the `json.loads(None)` failure in
`_save_conversation_messages` when the record is gone. -/
inductive ChatErr where
  | conversationNotFound (cid : String)
  | badMessageRecord
  | modelUnavailable
  | saveMissingRecord (cid : String)
deriving DecidableEq, Repr

/-- ConversationManager.create_conversation: build the record with empty
messages and equal timestamps, `SET` it, `ZADD` its id. -/
def create_conversation (store : Store) (cid title nowIso : String) (nowTs : Int) :
    ConvRecord × Store :=
  let conversation : ConvRecord :=
    { id := cid, title := title, messages := [],
      created_at := nowIso, updated_at := nowIso }
  (conversation, zadd (kvSet store (convKey cid) conversation) cid nowTs)

/-- Summary built from a record inside `list_conversations`. -/
def summarize (conv : ConvRecord) : ConversationSummary :=
  { id := conv.id, title := conv.title, created_at := conv.created_at,
    updated_at := conv.updated_at, message_count := conv.messages.length }

/-- ConversationManager.list_conversations: iterate the ids from `ZREVRANGE`,
fetch each record, silently skip the absent ones. -/
def list_conversations (store : Store) : List ConversationSummary :=
  (zrevrange store.zset).filterMap fun cid =>
    (store.kv (convKey cid)).map summarize

/-- ConversationManager.get_conversation: fetch the record or `None`. -/
def get_conversation (store : Store) (cid : String) : Option ConvRecord :=
  store.kv (convKey cid)

/-- ConversationManager.delete_conversation: `DELETE` the record key, return
whether the deleted count was positive. -/
def delete_conversation (store : Store) (cid : String) : Bool × Store :=
  let r := kvDelete store (convKey cid)
  (decide (0 < r.1), r.2)

/-- ConversationManager._save_conversation: `SET` the record under the id taken
from the record itself, then `ZADD` that id with the current timestamp. -/
def save_conversation (store : Store) (conversation : ConvRecord) (nowTs : Int) : Store :=
  zadd (kvSet store (convKey conversation.id) conversation) conversation.id nowTs

/-- ConversationManager._save_conversation_messages: re-fetch the record
(`json.loads` of an absent value raises, modelled as `saveMissingRecord`),
replace its messages with the dumps, bump `updated_at`, save. -/
def save_conversation_messages (store : Store) (cid : String) (msgs : List Message)
    (nowIso : String) (nowTs : Int) : Except ChatErr Unit × Store :=
  match store.kv (convKey cid) with
  | none => (.error (.saveMissingRecord cid), store)
  | some conversation =>
    let conversation2 : ConvRecord :=
      { conversation with messages := msgs.map Message.model_dump, updated_at := nowIso }
    (.ok (), save_conversation store conversation2 nowTs)

/-- Result of a non-streaming turn: `{"content": ..., "conversation_id": ...}`. -/
structure NonStreamResult where
  content : String
  conversation_id : String
deriving DecidableEq, Repr

/-- ConversationManager._non_stream_chat.  The agent loop
(`dial_client.response`, not under src) is modelled from the spec as a function
`dial` from the message sequence to the final assistant message together with
the whole mutated message sequence, `none` meaning the model call failed. -/
def non_stream_chat (dial : List Message → Option (Message × List Message))
    (store : Store) (cid : String) (msgs : List Message)
    (nowIso : String) (nowTs : Int) : Except ChatErr NonStreamResult × Store :=
  match dial msgs with
  | none => (.error .modelUnavailable, store)
  | some (ai, msgs2) =>
    match save_conversation_messages store cid msgs2 nowIso nowTs with
    | (.error e, store2) => (.error e, store2)
    | (.ok _, store2) => (.ok ⟨ai.content.getD "", cid⟩, store2)

/-- One step of the streaming generator, as observed by its consumer: either an
SSE string is yielded, or the persistence step runs. -/
inductive StreamAct where
  | yieldEv (frame : String)
  | save
deriving DecidableEq, Repr

/-- The first SSE frame of a stream:
`f"data: {json.dumps({'conversation_id': conversation_id})}\n\n"`. -/
def convIdFrame (cid : String) : String :=
  "data: \x7b\"conversation_id\": \"" ++ cid ++ "\"\x7d\n\n"

/-- ConversationManager._stream_chat.  The streaming agent loop
(`dial_client.stream_response`, not under src) is modelled from the spec as a
function `streamResp` from the message sequence to the chunks it yields and the
mutated message sequence.  The result is the ordered trace of generator steps
paired with the outcome of the final save. -/
def stream_chat (streamResp : List Message → List String × List Message)
    (store : Store) (cid : String) (msgs : List Message)
    (nowIso : String) (nowTs : Int) :
    List StreamAct × (Except ChatErr Unit × Store) :=
  let chunks := (streamResp msgs).1
  let msgs2 := (streamResp msgs).2
  (StreamAct.yieldEv (convIdFrame cid) :: (chunks.map StreamAct.yieldEv ++ [StreamAct.save]),
   save_conversation_messages store cid msgs2 nowIso nowTs)

/-- What a `chat` call delivers: a result dict, or the drained stream trace. -/
inductive ChatOutcome where
  | nonStream (result : NonStreamResult)
  | streamed (trace : List StreamAct)

/-- ConversationManager.chat: load the conversation (raising when absent),
rebuild typed messages, prepend the system instruction when the history is
empty, append the user message, then run the non-streaming or streaming turn. -/
def chat (dial : List Message → Option (Message × List Message))
    (streamResp : List Message → List String × List Message)
    (store : Store) (userMsg : Message) (cid : String) (stream : Bool)
    (nowIso : String) (nowTs : Int) : Except ChatErr ChatOutcome × Store :=
  match get_conversation store cid with
  | none => (.error (.conversationNotFound cid), store)
  | some conversation =>
    match optMapM Message.ofRecord conversation.messages with
    | none => (.error .badMessageRecord, store)
    | some parsed =>
      let withSystem := if parsed.isEmpty then parsed ++ [systemMessage] else parsed
      let msgs := withSystem ++ [userMsg]
      match stream with
      | true =>
        let r := stream_chat streamResp store cid msgs nowIso nowTs
        match r.2.1 with
        | .error e => (.error e, r.2.2)
        | .ok _ => (.ok (.streamed r.1), r.2.2)
      | false =>
        let r := non_stream_chat dial store cid msgs nowIso nowTs
        match r.1 with
        | .error e => (.error e, r.2)
        | .ok res => (.ok (.nonStream res), r.2)

/-- The persisted message list of a conversation, as later turns observe it. -/
def persistedMessages (store : Store) (cid : String) : Option (List MsgRec) :=
  (get_conversation store cid).map ConvRecord.messages

/-- A store with no conversations at all. -/
def emptyStore : Store := { kv := fun _ => none, zset := [] }

/-- A concrete user message used to instantiate theorems. -/
def userMsgW : Message :=
  { role := Role.user, content := some "hello", tool_calls := none, tool_call_id := none }

/-- A concrete assistant message used to instantiate theorems. -/
def aiMsgW : Message :=
  { role := Role.assistant, content := some "hi", tool_calls := none, tool_call_id := none }

/-- A store holding exactly one freshly created conversation `c1`. -/
def oneConvStore : Store := (create_conversation emptyStore "c1" "t1" "i1" 1).2

theorem get_after_save (store : Store) (rec2 : ConvRecord) (nowTs : Int) :
    get_conversation (save_conversation store rec2 nowTs) rec2.id = some rec2 := by
  simp [get_conversation, save_conversation, zadd, kvSet]

theorem persisted_after_save (store : Store) (rec2 : ConvRecord) (nowTs : Int) :
    persistedMessages (save_conversation store rec2 nowTs) rec2.id = some rec2.messages := by
  simp [persistedMessages, get_after_save]

/-- C2: calling `chat` with an identifier that has no record in the store fails
with the conversation-not-found error (the `ValueError` raised in `chat`,
playing the role of the spec's `ConversationNotFoundError`) and returns the
store unchanged. -/
theorem chat_absent_conversation_fails (dial : List Message → Option (Message × List Message))
    (streamResp : List Message → List String × List Message)
    (store : Store) (userMsg : Message) (cid : String) (stream : Bool)
    (nowIso : String) (nowTs : Int)
    (h : get_conversation store cid = none) :
    chat dial streamResp store userMsg cid stream nowIso nowTs =
      (.error (.conversationNotFound cid), store) := by
  unfold chat
  rw [h]

/-- Witness for C2: a chat call against the empty store fails and changes
nothing. -/
theorem chat_absent_conversation_fails_witness :
    chat (fun _ => none) (fun _ => ([], [])) emptyStore userMsgW "c1" false "t" 0 =
      (.error (.conversationNotFound "c1"), emptyStore) :=
  chat_absent_conversation_fails _ _ _ _ _ _ _ _ rfl

/-- C4: when the model call of a non-streaming turn fails, the turn surfaces
the failure and the store — record, `updated_at`, recency-index score — is
returned exactly as it was. -/
theorem non_stream_chat_model_failure (dial : List Message → Option (Message × List Message))
    (store : Store) (cid : String) (msgs : List Message) (nowIso : String) (nowTs : Int)
    (h : dial msgs = none) :
    non_stream_chat dial store cid msgs nowIso nowTs = (.error .modelUnavailable, store) := by
  unfold non_stream_chat
  rw [h]

/-- Witness for C4: a failing model call against a one-conversation store
persists nothing. -/
theorem non_stream_chat_model_failure_witness :
    non_stream_chat (fun _ => none) oneConvStore "c1" [userMsgW] "t" 2 =
      (.error .modelUnavailable, oneConvStore) :=
  non_stream_chat_model_failure _ _ _ _ _ _ rfl

/-- C5: the trace of a streaming turn starts with the conversation-identifier
frame, before any model chunk; the persistence step is the last action of the
trace, occurring exactly once, after every chunk has been yielded. -/
theorem stream_chat_frame_first_save_last
    (streamResp : List Message → List String × List Message)
    (store : Store) (cid : String) (msgs : List Message) (nowIso : String) (nowTs : Int) :
    ((stream_chat streamResp store cid msgs nowIso nowTs).1).head? =
      some (StreamAct.yieldEv (convIdFrame cid)) ∧
    ((stream_chat streamResp store cid msgs nowIso nowTs).1).getLast? = some StreamAct.save ∧
    ((stream_chat streamResp store cid msgs nowIso nowTs).1).count StreamAct.save = 1 ∧
    (stream_chat streamResp store cid msgs nowIso nowTs).1 =
      StreamAct.yieldEv (convIdFrame cid) ::
        (((streamResp msgs).1).map StreamAct.yieldEv ++ [StreamAct.save]) := by
  refine ⟨rfl, ?_, ?_, rfl⟩
  · show (StreamAct.yieldEv (convIdFrame cid) ::
        (((streamResp msgs).1).map StreamAct.yieldEv ++ [StreamAct.save])).getLast? =
      some StreamAct.save
    rw [← List.cons_append]
    exact List.getLast?_concat _
  · have hnot : StreamAct.save ∉ ((streamResp msgs).1).map StreamAct.yieldEv := by
      simp
    simp [stream_chat, List.count_cons, List.count_append, List.count_eq_zero.mpr hnot]

/-- C8: `delete_conversation` returns `true` exactly when the record existed,
removes the record, and hence deleting twice returns `true` then `false`. -/
theorem delete_conversation_existed :
    (∀ store cid, (delete_conversation store cid).1 = (store.kv (convKey cid)).isSome) ∧
    (∀ store cid, ((delete_conversation store cid).2).kv (convKey cid) = none) ∧
    (∀ store cid, (store.kv (convKey cid)).isSome →
      (delete_conversation store cid).1 = true ∧
      (delete_conversation (delete_conversation store cid).2 cid).1 = false) := by
  have hfst : ∀ store cid, (delete_conversation store cid).1 = (store.kv (convKey cid)).isSome := by
    intro store cid
    unfold delete_conversation kvDelete
    cases h : (store.kv (convKey cid)).isSome <;> simp [h]
  have hsnd : ∀ store cid, ((delete_conversation store cid).2).kv (convKey cid) = none := by
    intro store cid
    simp [delete_conversation, kvDelete]
  refine ⟨hfst, hsnd, ?_⟩
  intro store cid h
  constructor
  · rw [hfst]
    exact h
  · rw [hfst, hsnd]
    rfl

/-- Witness for C8: deleting the one stored conversation twice answers `true`
then `false`. -/
theorem delete_conversation_existed_witness :
    (delete_conversation oneConvStore "c1").1 = true ∧
    (delete_conversation (delete_conversation oneConvStore "c1").2 "c1").1 = false :=
  delete_conversation_existed.2.2 oneConvStore "c1" (by decide)

/-- C9: `delete_conversation` touches only the key-value record; the recency
index is left unchanged, so a deleted conversation's identifier stays in it. -/
theorem delete_preserves_recency_index :
    (∀ store cid, ((delete_conversation store cid).2).zset = store.zset) ∧
    (∀ store cid, cid ∈ store.zset.map Prod.fst →
      cid ∈ ((delete_conversation store cid).2).zset.map Prod.fst) := by
  refine ⟨fun store cid => rfl, ?_⟩
  intro store cid h
  exact h

/-- Witness for C9: after deleting `c1`, its identifier is still indexed. -/
theorem delete_preserves_recency_index_witness :
    "c1" ∈ ((delete_conversation oneConvStore "c1").2).zset.map Prod.fst :=
  delete_preserves_recency_index.2 oneConvStore "c1" (by decide)

/-- C10: the save step fails on a missing record — the store is returned
unchanged, so the record is neither recreated nor silently skipped. -/
theorem save_missing_record_fails (store : Store) (cid : String) (msgs : List Message)
    (nowIso : String) (nowTs : Int)
    (h : store.kv (convKey cid) = none) :
    save_conversation_messages store cid msgs nowIso nowTs =
      (.error (.saveMissingRecord cid), store) := by
  unfold save_conversation_messages
  rw [h]

/-- Witness for C10: saving into the empty store fails without writing. -/
theorem save_missing_record_fails_witness :
    save_conversation_messages emptyStore "c1" [userMsgW] "t" 2 =
      (.error (.saveMissingRecord "c1"), emptyStore) :=
  save_missing_record_fails _ _ _ _ _ rfl

theorem chat_nonstream_store (dial : List Message → Option (Message × List Message))
    (streamResp : List Message → List String × List Message)
    (store : Store) (cid : String) (userMsg ai : Message)
    (conversation : ConvRecord) (parsed final : List Message) (nowIso : String) (nowTs : Int)
    (hget : get_conversation store cid = some conversation)
    (hparse : optMapM Message.ofRecord conversation.messages = some parsed)
    (hdial : dial ((if parsed.isEmpty then parsed ++ [systemMessage] else parsed) ++ [userMsg]) =
      some (ai, final)) :
    (chat dial streamResp store userMsg cid false nowIso nowTs).2 =
      save_conversation store
        { conversation with messages := final.map Message.model_dump, updated_at := nowIso }
        nowTs := by
  unfold chat
  rw [hget]
  dsimp only
  rw [hparse]
  dsimp only
  unfold non_stream_chat
  rw [hdial]
  dsimp only
  unfold save_conversation_messages
  rw [show store.kv (convKey cid) = some conversation from hget]

/-- C3: saving a message sequence (tool_calls and tool_call_id included) over
an existing record and then reloading the conversation and reconstructing
typed messages yields the very sequence that was saved. -/
theorem save_then_reload_roundtrip (store : Store) (cid : String) (msgs : List Message)
    (nowIso : String) (nowTs : Int) (rec : ConvRecord)
    (h : store.kv (convKey cid) = some rec) (hid : rec.id = cid) :
    (get_conversation ((save_conversation_messages store cid msgs nowIso nowTs).2) cid).map
      (fun rec2 => optMapM Message.ofRecord rec2.messages) = some (some msgs) := by
  unfold save_conversation_messages
  rw [h]
  dsimp only
  rw [hid]
  have h2 := get_after_save store
    ({ rec with messages := msgs.map Message.model_dump, updated_at := nowIso }) nowTs
  dsimp only at h2
  rw [hid] at h2
  rw [h2]
  simp [optMapM_map_roundtrip Message.ofRecord_model_dump msgs]

/-- A tool call used to instantiate the round-trip theorem. -/
def toolCallW : ToolCall :=
  { id := "tc1", name := "list_users", arguments := JVal.jobj [("limit", JVal.jstr "10")] }

/-- An assistant message requesting a tool call. -/
def asstToolMsgW : Message :=
  { role := Role.assistant, content := none, tool_calls := some [toolCallW],
    tool_call_id := none }

/-- A tool-result message linked back by `tool_call_id`. -/
def toolResultMsgW : Message :=
  { role := Role.tool, content := some "result", tool_calls := none,
    tool_call_id := some "tc1" }

/-- A message sequence exercising tool_calls and tool_call_id linkage. -/
def roundMsgsW : List Message :=
  [systemMessage, userMsgW, asstToolMsgW, toolResultMsgW, aiMsgW]

/-- Witness for C3: a sequence with a tool-call and a tool-result message
survives the save-reload round trip. -/
theorem save_then_reload_roundtrip_witness :
    (get_conversation ((save_conversation_messages oneConvStore "c1" roundMsgsW "t2" 2).2) "c1").map
      (fun rec2 => optMapM Message.ofRecord rec2.messages) = some (some roundMsgsW) :=
  save_then_reload_roundtrip oneConvStore "c1" roundMsgsW "t2" 2
    { id := "c1", title := "t1", messages := [], created_at := "i1", updated_at := "i1" }
    rfl rfl

/-- C1: with an empty persisted history, a non-streaming chat turn persists a
sequence whose first element is the fixed system instruction and whose second
is the supplied user message, followed by exactly the agent loop's appends;
with a non-empty history, no system instruction is prepended. -/
theorem chat_first_turn_seeds_system_prompt :
    (∀ (dial : List Message → Option (Message × List Message))
       (streamResp : List Message → List String × List Message)
       (store : Store) (cid : String) (userMsg ai : Message)
       (conversation : ConvRecord) (extra : List Message) (nowIso : String) (nowTs : Int),
      get_conversation store cid = some conversation →
      conversation.messages = [] →
      conversation.id = cid →
      dial [systemMessage, userMsg] = some (ai, [systemMessage, userMsg] ++ extra) →
      persistedMessages ((chat dial streamResp store userMsg cid false nowIso nowTs).2) cid =
          some (([systemMessage, userMsg] ++ extra).map Message.model_dump) ∧
        (([systemMessage, userMsg] ++ extra).map Message.model_dump).head? =
          some systemMessage.model_dump ∧
        ((([systemMessage, userMsg] ++ extra).map Message.model_dump).drop 1).head? =
          some userMsg.model_dump) ∧
    (∀ (dial : List Message → Option (Message × List Message))
       (streamResp : List Message → List String × List Message)
       (store : Store) (cid : String) (userMsg ai : Message)
       (conversation : ConvRecord) (parsed extra : List Message) (nowIso : String) (nowTs : Int),
      get_conversation store cid = some conversation →
      optMapM Message.ofRecord conversation.messages = some parsed →
      parsed ≠ [] →
      conversation.id = cid →
      dial (parsed ++ [userMsg]) = some (ai, (parsed ++ [userMsg]) ++ extra) →
      persistedMessages ((chat dial streamResp store userMsg cid false nowIso nowTs).2) cid =
        some (((parsed ++ [userMsg]) ++ extra).map Message.model_dump)) := by
  constructor
  · intro dial streamResp store cid userMsg ai conversation extra nowIso nowTs
      hget hmsgs hid hdial
    have hparse : optMapM Message.ofRecord conversation.messages = some [] := by
      rw [hmsgs]
      rfl
    have hdial2 : dial ((if ([] : List Message).isEmpty then
        ([] : List Message) ++ [systemMessage] else []) ++ [userMsg]) =
        some (ai, [systemMessage, userMsg] ++ extra) := hdial
    have hstore := chat_nonstream_store dial streamResp store cid userMsg ai conversation
      [] ([systemMessage, userMsg] ++ extra) nowIso nowTs hget hparse hdial2
    refine ⟨?_, rfl, rfl⟩
    rw [hstore, hid]
    have h2 := persisted_after_save store
      ({ conversation with messages := ([systemMessage, userMsg] ++ extra).map Message.model_dump, updated_at := nowIso }) nowTs
    dsimp only at h2
    rw [hid] at h2
    exact h2
  · intro dial streamResp store cid userMsg ai conversation parsed extra nowIso nowTs
      hget hparse hne hid hdial
    cases parsed with
    | nil => exact absurd rfl hne
    | cons p ps =>
      have hdial2 : dial ((if (p :: ps).isEmpty then (p :: ps) ++ [systemMessage]
          else (p :: ps)) ++ [userMsg]) =
          some (ai, ((p :: ps) ++ [userMsg]) ++ extra) := hdial
      have hstore := chat_nonstream_store dial streamResp store cid userMsg ai conversation
        (p :: ps) (((p :: ps) ++ [userMsg]) ++ extra) nowIso nowTs hget hparse hdial2
      rw [hstore, hid]
      have h2 := persisted_after_save store
        ({ conversation with messages := (((p :: ps) ++ [userMsg]) ++ extra).map Message.model_dump, updated_at := nowIso }) nowTs
      dsimp only at h2
      rw [hid] at h2
      exact h2

/-- Witness for C1: the first turn on a freshly created conversation persists
the system instruction, the user message, then the agent loop's append. -/
theorem chat_first_turn_seeds_system_prompt_witness :
    persistedMessages ((chat (fun msgs => some (aiMsgW, msgs ++ [aiMsgW])) (fun _ => ([], []))
        oneConvStore userMsgW "c1" false "t2" 2).2) "c1" =
      some (([systemMessage, userMsgW] ++ [aiMsgW]).map Message.model_dump) :=
  (chat_first_turn_seeds_system_prompt.1 (fun msgs => some (aiMsgW, msgs ++ [aiMsgW]))
    (fun _ => ([], [])) oneConvStore "c1" userMsgW aiMsgW
    { id := "c1", title := "t1", messages := [], created_at := "i1", updated_at := "i1" }
    [aiMsgW] "t2" 2 rfl rfl rfl rfl).1

theorem convKey_inj (a b : String) (h : convKey a = convKey b) : a = b := by
  have h2 : CONVERSATION_PREFIX.data ++ a.data = CONVERSATION_PREFIX.data ++ b.data := by
    have h3 := congrArg String.data h
    simpa [convKey] using h3
  exact String.ext (List.append_cancel_left h2)

theorem mem_of_mem_zrevrangePairs (zs : List (String × Int)) (p : String × Int)
    (h : p ∈ zrevrangePairs zs) : p ∈ zs := by
  simpa [zrevrangePairs] using h

theorem mem_zrevrange_of_mem (zs : List (String × Int)) (cid : String)
    (h : cid ∈ zs.map Prod.fst) : cid ∈ zrevrange zs := by
  rw [List.mem_map] at h
  obtain ⟨p, hp, he⟩ := h
  refine List.mem_map.mpr ⟨p, ?_, he⟩
  simpa [zrevrangePairs] using hp

theorem zscoreOf_mem (zs : List (String × Int)) (p : String × Int)
    (hnd : (zs.map Prod.fst).Nodup) (hp : p ∈ zs) : zscoreOf zs p.1 = some p.2 := by
  induction zs with
  | nil => cases hp
  | cons q rest ih =>
    rw [List.map_cons, List.nodup_cons] at hnd
    rcases List.mem_cons.mp hp with h | h
    · rw [← h]
      simp [zscoreOf]
    · have hne : ¬ q.1 = p.1 := fun he => hnd.1 (he ▸ List.mem_map_of_mem Prod.fst h)
      simpa [zscoreOf, hne] using ih hnd.2 h

/-- A store with three conversations created at timestamps 1, 2 and 3. -/
def threeConvStore : Store :=
  (create_conversation
    ((create_conversation
      ((create_conversation emptyStore "c1" "t1" "i1" 1).2) "c2" "t2" "i2" 2).2)
    "c3" "t3" "i3" 3).2

/-- C6: for every store whose records carry their own key identifier,
`list_conversations` returns summaries ordered by recency-index score
descending; in particular after creating three conversations at increasing
times the listing is most-recently-updated first. -/
theorem list_conversations_recency_order :
    (∀ store : Store,
      (∀ cid rec, store.kv (convKey cid) = some rec → rec.id = cid) →
      (store.zset.map Prod.fst).Nodup →
      ((list_conversations store).map ConversationSummary.id).Pairwise
        (fun a b => ∀ sa sb, zscoreOf store.zset a = some sa →
          zscoreOf store.zset b = some sb → sb ≤ sa)) ∧
    (list_conversations threeConvStore).map ConversationSummary.id = ["c3", "c2", "c1"] := by
  constructor
  · intro store hwf hnd
    have hsorted : (zrevrangePairs store.zset).Pairwise (fun p q => zleP q p) := by
      have hs : (List.insertionSort zleP store.zset).Pairwise zleP :=
        List.sorted_insertionSort zleP store.zset
      exact List.pairwise_reverse.mpr hs
    unfold list_conversations zrevrange
    rw [List.map_filterMap, List.filterMap_map]
    refine List.pairwise_filterMap.mpr (hsorted.imp_of_mem ?_)
    intro p q hp hq hpq x hx y hy
    cases hkvp : store.kv (convKey p.1) with
    | none => rw [Function.comp_apply, hkvp] at hx; simp at hx
    | some rec =>
      cases hkvq : store.kv (convKey q.1) with
      | none => rw [Function.comp_apply, hkvq] at hy; simp at hy
      | some rec2 =>
        rw [Function.comp_apply, hkvp] at hx
        rw [Function.comp_apply, hkvq] at hy
        simp only [Option.map_some', Option.mem_def, Option.some.injEq] at hx hy
        rw [← hx, ← hy]
        intro sa sb hsa hsb
        have hidp : (summarize rec).id = p.1 := hwf p.1 rec hkvp
        have hidq : (summarize rec2).id = q.1 := hwf q.1 rec2 hkvq
        rw [hidp] at hsa
        rw [hidq] at hsb
        have hsp := zscoreOf_mem store.zset p hnd (mem_of_mem_zrevrangePairs _ _ hp)
        have hsq := zscoreOf_mem store.zset q hnd (mem_of_mem_zrevrangePairs _ _ hq)
        rw [hsp] at hsa
        rw [hsq] at hsb
        have hsa2 : sa = p.2 := (Option.some.inj hsa).symm
        have hsb2 : sb = q.2 := (Option.some.inj hsb).symm
        rw [hsa2, hsb2]
        rcases hpq with h | ⟨h, _⟩
        · exact le_of_lt h
        · exact le_of_eq h
  · rfl

/-- Witness for C6: the three-conversation store's listing is pairwise ordered
by descending recency score. -/
theorem list_conversations_recency_order_witness :
    ((list_conversations threeConvStore).map ConversationSummary.id).Pairwise
      (fun a b => ∀ sa sb, zscoreOf threeConvStore.zset a = some sa →
        zscoreOf threeConvStore.zset b = some sb → sb ≤ sa) := by
  refine list_conversations_recency_order.1 threeConvStore ?_ (by decide)
  intro cid rec h
  unfold threeConvStore create_conversation zadd kvSet emptyStore at h
  dsimp only at h
  split_ifs at h with h1 h2 h3
  all_goals first
    | exact Option.noConfusion h
    | (injection h with h4; rw [← h4]; exact (convKey_inj _ _ h1).symm)
    | (injection h with h4; rw [← h4]; exact (convKey_inj _ _ h2).symm)
    | (injection h with h4; rw [← h4]; exact (convKey_inj _ _ h3).symm)

/-- C7: an identifier present in the recency index whose record is absent is
silently omitted from the listing, while every other indexed identifier whose
record is present is still returned. -/
theorem list_conversations_skips_missing (store : Store) (cidM : String)
    (hwf : ∀ cid rec, store.kv (convKey cid) = some rec → rec.id = cid)
    (_hidx : cidM ∈ store.zset.map Prod.fst)
    (hmiss : store.kv (convKey cidM) = none) :
    cidM ∉ (list_conversations store).map ConversationSummary.id ∧
    ∀ cid2, cid2 ∈ store.zset.map Prod.fst → (store.kv (convKey cid2)).isSome →
      cid2 ∈ (list_conversations store).map ConversationSummary.id := by
  constructor
  · intro hmem
    rw [List.mem_map] at hmem
    obtain ⟨s, hs, hsid⟩ := hmem
    rw [list_conversations, List.mem_filterMap] at hs
    obtain ⟨cid3, _, hg⟩ := hs
    cases hkv : store.kv (convKey cid3) with
    | none => rw [hkv] at hg; cases hg
    | some rec =>
      rw [hkv] at hg
      have hrec : summarize rec = s := Option.some.inj hg
      have hc3 : cid3 = cidM := by
        rw [← hsid, ← hrec]
        exact (hwf cid3 rec hkv).symm
      rw [hc3] at hkv
      rw [hkv] at hmiss
      cases hmiss
  · intro cid2 hmem2 hsome
    cases hkv : store.kv (convKey cid2) with
    | none => rw [hkv] at hsome; cases hsome
    | some rec =>
      have hsmem : summarize rec ∈ list_conversations store := by
        rw [list_conversations, List.mem_filterMap]
        exact ⟨cid2, mem_zrevrange_of_mem _ _ hmem2, by rw [hkv]; rfl⟩
      exact List.mem_map.mpr ⟨summarize rec, hsmem, hwf cid2 rec hkv⟩

/-- A store with two conversations `c1` and `c2`. -/
def twoConvStore : Store :=
  (create_conversation ((create_conversation emptyStore "c1" "t1" "i1" 1).2)
    "c2" "t2" "i2" 2).2

/-- The two-conversation store after deleting only `c1`'s record: its id is
still in the recency index. -/
def partialStore : Store := (delete_conversation twoConvStore "c1").2

/-- Witness for C7: `c1` (indexed, record deleted) is omitted, `c2` is still
listed. -/
theorem list_conversations_skips_missing_witness :
    "c1" ∉ (list_conversations partialStore).map ConversationSummary.id ∧
    "c2" ∈ (list_conversations partialStore).map ConversationSummary.id := by
  have hwf : ∀ cid rec, partialStore.kv (convKey cid) = some rec → rec.id = cid := by
    intro cid rec h
    unfold partialStore delete_conversation kvDelete twoConvStore create_conversation
      zadd kvSet emptyStore at h
    dsimp only at h
    split_ifs at h with h1 h2
    all_goals first
      | exact Option.noConfusion h
      | (injection h with h4; rw [← h4]; exact (convKey_inj _ _ h2).symm)
  have h := list_conversations_skips_missing partialStore "c1" hwf (by decide) rfl
  exact ⟨h.1, h.2 "c2" (by decide) (by decide)⟩

end UmsAgent
